import Mathlib

/-!
Shallow embedding of the con-utils command-line parsing engine
(packages/con-cli): value-type validators, flag definitions, flag
scopes, the command tree and the recursive-descent parser
(commands-parser.ts, flags.ts, value-type.ts, command.ts).

JavaScript numbers are modelled as exact rationals together with NaN
and signed infinity; every concrete value appearing in the claims is
exactly representable as an IEEE double, so double rounding plays no
role in the statements settled here.
-/

/-- JS runtime values that flow through the parser: strings, finite
numbers (exact rationals), NaN, infinities and booleans. -/
inductive JsValue where
  | vStr (s : String)
  | vNum (q : ℚ)
  | vNan
  | vInf (neg : Bool)
  | vBool (b : Bool)
deriving DecidableEq, Repr

/-- Result of converting a string to a JS number (`Number(s)` or
`parseInt(s, 10)`). -/
inductive JsNum where
  | nan
  | inf (neg : Bool)
  | val (q : ℚ)
deriving DecidableEq, Repr

/-- Model of `String.prototype.toLowerCase` (claims only use ASCII names). -/
def strToLower (s : String) : String := String.mk (s.toList.map Char.toLower)

/-- ASCII decimal digit test used by the numeric grammars. -/
def jsIsDigit (c : Char) : Bool := 48 ≤ c.toNat && c.toNat ≤ 57

def jsDigitVal (c : Char) : Nat := c.toNat - 48

/-- JS `StrWhiteSpaceChar` (the common members). -/
def jsIsWs (c : Char) : Bool :=
  c = ' ' || c = '\t' || c = '\n' || c = '\r' || c.toNat = 11 || c.toNat = 12

def digitsToNat (l : List Char) : Nat := l.foldl (fun a c => 10 * a + jsDigitVal c) 0

def trimWs (l : List Char) : List Char :=
  ((l.dropWhile jsIsWs).reverse.dropWhile jsIsWs).reverse

def jsIsHexDigit (c : Char) : Bool :=
  jsIsDigit c || (97 ≤ c.toNat && c.toNat ≤ 102) || (65 ≤ c.toNat && c.toNat ≤ 70)

def jsHexVal (c : Char) : Nat :=
  if jsIsDigit c then jsDigitVal c
  else if 97 ≤ c.toNat then c.toNat - 87
  else c.toNat - 55

def radixDigitsVal (b : Nat) (l : List Char) : Nat := l.foldl (fun a c => b * a + jsHexVal c) 0

def jsIsRadixDigit (b : Nat) (c : Char) : Bool :=
  if b = 16 then jsIsHexDigit c else jsIsDigit c && jsDigitVal c < b

/-- A `0x`/`0o`/`0b` integer literal body: nonempty, all digits of the base. -/
def parseRadix (b : Nat) (l : List Char) : JsNum :=
  if l ≠ [] ∧ l.all (jsIsRadixDigit b) then .val (mkRat (radixDigitsVal b l) 1) else .nan

/-- Which non-decimal radix a `0?` prefix letter selects. -/
def radixOf (c : Char) : Option Nat :=
  if c = 'x' || c = 'X' then some 16
  else if c = 'o' || c = 'O' then some 8
  else if c = 'b' || c = 'B' then some 2
  else none

/-- Strip an optional leading sign, returning whether it was `-`. -/
def splitSign (cs : List Char) : Bool × List Char :=
  match cs with
  | c :: r => if c = '-' then (true, r) else if c = '+' then (false, r) else (false, cs)
  | [] => (false, cs)

/-- Ten to a natural power as a rational, kept kernel-computable. -/
def pow10 (n : Nat) : ℚ := ((10 ^ n : ℕ) : ℚ)

/-- Value of `ip . fp e exponent` as an exact rational,
`(ip + fp / 10 ^ |fp|) * 10 ^ e`, built with `mkRat` so that it
evaluates inside the kernel. -/
def decValue (ip fp : List Char) (e : ℤ) : ℚ :=
  let m : ℕ := digitsToNat ip * 10 ^ fp.length + digitsToNat fp
  if 0 ≤ e then mkRat (m * 10 ^ e.toNat) (10 ^ fp.length)
  else mkRat m (10 ^ fp.length * 10 ^ (-e).toNat)

/-- Optional exponent part of a decimal literal; must consume the whole rest. -/
def parseExpOpt : List Char → Option ℤ
  | [] => some 0
  | c :: r =>
    if c = 'e' || c = 'E' then
      let pr := splitSign r
      if pr.2 ≠ [] ∧ pr.2.all jsIsDigit then
        some (if pr.1 then -(digitsToNat pr.2 : ℤ) else (digitsToNat pr.2 : ℤ))
      else none
    else none

/-- Model of `StrUnsignedDecimalLiteral` minus the `Infinity` case; consumes all of `cs`. -/
def parseUDec (cs : List Char) : Option ℚ :=
  let ip := cs.takeWhile jsIsDigit
  let r1 := cs.dropWhile jsIsDigit
  match r1 with
  | '.' :: r2 =>
    let fp := r2.takeWhile jsIsDigit
    let r3 := r2.dropWhile jsIsDigit
    if ip.isEmpty && fp.isEmpty then none
    else (parseExpOpt r3).map (fun e => decValue ip fp e)
  | _ => if ip.isEmpty then none else (parseExpOpt r1).map (fun e => decValue ip [] e)

/-- Signed decimal literal or signed `Infinity`. -/
def parseSignedDec (cs : List Char) : JsNum :=
  let pr := splitSign cs
  if pr.2 = "Infinity".toList then .inf pr.1
  else
    match parseUDec pr.2 with
    | some q => .val (if pr.1 then -q else q)
    | none => .nan

/-- Model of `StrNumericLiteral`: a radix-prefixed integer literal or a signed decimal. -/
def parseNumericLit (cs : List Char) : JsNum :=
  match cs with
  | c0 :: c1 :: rest =>
    if c0 = '0' then
      match radixOf c1 with
      | some b => parseRadix b rest
      | none => parseSignedDec (c0 :: c1 :: rest)
    else parseSignedDec (c0 :: c1 :: rest)
  | _ => parseSignedDec cs

/-- JS `Number(s)` for a string argument: trim whitespace, empty means 0,
otherwise the numeric-literal grammar (NaN on failure). -/
def jsToNumber (s : String) : JsNum :=
  let cs := trimWs s.toList
  if cs.isEmpty then .val 0 else parseNumericLit cs

/-- JS `parseInt(s, 10)`: trim leading whitespace, optional sign, then the
longest prefix of decimal digits (NaN when there is none). -/
def jsParseInt10 (s : String) : JsNum :=
  let cs := s.toList.dropWhile jsIsWs
  let pr := splitSign cs
  let ds := pr.2.takeWhile jsIsDigit
  if ds.isEmpty then .nan
  else .val (if pr.1 then mkRat (-(digitsToNat ds : ℤ)) 1 else mkRat (digitsToNat ds) 1)

def jsNumToValue : JsNum → JsValue
  | .nan => .vNan
  | .inf b => .vInf b
  | .val q => .vNum q

/-- Model of `VALID_BOOLEAN_TYPES` from value-type.ts. -/
def VALID_BOOLEAN_TYPES : List String := ["false", "true", "0", "1"]

/-- The built-in validators of value-type.ts used by the claims
(BooleanTypeValidator, NumberTypeValidator, IntegerTypeValidator,
StringTypeValidator). -/
inductive ValueTypeValidator where
  | boolV
  | numberV
  | intV
  | stringV
deriving DecidableEq, Repr

/-- Model of `isValid` of each validator class. `numberV` is
`!isNaN(Number(input))`; `intV` is `Number.isInteger(Number(input))`
(finite with denominator 1 in the exact-rational model). -/
def ValueTypeValidator.isValid : ValueTypeValidator → String → Bool
  | .boolV, input => VALID_BOOLEAN_TYPES.contains (strToLower input)
  | .numberV, input => (match jsToNumber input with | .nan => false | _ => true)
  | .intV, input => (match jsToNumber input with | .val q => q.den == 1 | _ => false)
  | .stringV, _ => true

/-- Model of `coerce` of each validator class. `boolV` lower-cases and maps
`"false"`/`"0"` to false, any other string to `Boolean(input)`;
`numberV` is `Number(input)`; `intV` is `parseInt(input, 10)`. -/
def ValueTypeValidator.coerce : ValueTypeValidator → String → JsValue
  | .boolV, input =>
    let l := strToLower input
    .vBool (if l == "false" || l == "0" then false else l != "")
  | .numberV, input => jsNumToValue (jsToNumber input)
  | .intV, input => jsNumToValue (jsParseInt10 input)
  | .stringV, input => .vStr input

/-- The `name` type tag of each validator. -/
def ValueTypeValidator.vname : ValueTypeValidator → String
  | .boolV => "bool"
  | .numberV => "number"
  | .intV => "int"
  | .stringV => "string"

/-- JS truthiness of the modelled values. -/
def JsValue.truthy : JsValue → Bool
  | .vStr s => s != ""
  | .vNum q => q != 0
  | .vNan => false
  | .vInf _ => true
  | .vBool b => b

/-- Truthiness of a nullable value (`null` is falsy). -/
def jsTruthyOpt : Option JsValue → Bool
  | none => false
  | some v => v.truthy

/-- Model of `ArgumentLike<T>` from arguments.ts: a positional parameter
descriptor. `defaultValue = none` models `null` (required). -/
structure ArgumentLike where
  name : String
  validator : ValueTypeValidator
  defaultValue : Option JsValue
deriving DecidableEq, Repr

/-- The `ArgumentLike` constructor lower-cases the name. -/
def ArgumentLike.create (name : String) (validator : ValueTypeValidator)
    (defaultValue : Option JsValue) : ArgumentLike :=
  ⟨strToLower name, validator, defaultValue⟩

/-- Model of `isRequired()`: the default value is null. -/
def ArgumentLike.isRequired (a : ArgumentLike) : Bool := a.defaultValue.isNone

/-- Model of `toString()` as used in the missing-argument message. -/
def ArgumentLike.display (a : ArgumentLike) : String :=
  let s := a.name ++ ":" ++ a.validator.vname
  if a.isRequired then "<" ++ s ++ ">" else "[" ++ s ++ "]"

/-- Model of `ValueFlag<T>` from flags.ts. The `id` field models JS object
identity: the parser compares flag definitions by reference, so every
distinct flag object of a scenario carries a distinct id. -/
structure ValueFlag where
  id : Nat
  name : String
  validator : ValueTypeValidator
  defaultValue : Option JsValue
  long : Option String
  short : Option String
  isValueFlag : Bool
deriving DecidableEq, Repr

/-- The `ValueFlag` constructor: lower-cases name, long and short;
`isValueFlag` starts true. -/
def ValueFlag.create (id : Nat) (name : String) (validator : ValueTypeValidator)
    (defaultValue : Option JsValue) (long short : Option String) : ValueFlag :=
  ⟨id, strToLower name, validator, defaultValue, long.map strToLower,
    short.map strToLower, true⟩

/-- The boolean `Flag` constructor: bool validator, default `false`,
`isValueFlag` reset to false. -/
def Flag.create (id : Nat) (name : String) (long short : Option String) : ValueFlag :=
  { ValueFlag.create id name .boolV (some (.vBool false)) long short with isValueFlag := false }

/-- Model of `isValueBased()`. -/
def ValueFlag.isValueBased (f : ValueFlag) : Bool := f.isValueFlag

/-- One frame of a `FlagsGroup`: its own flag set and its string-keyed
index (keys carry the `flag:`/`long:`/`short:` namespace prefixes). -/
structure ScopeFrame where
  flags : List ValueFlag
  map : List (String × ValueFlag)
deriving DecidableEq, Repr

/-- A `FlagsGroup` with its chain of `base` parents, head frame first.
The source chains scopes by a nullable parent reference; since the tree
is immutable during parsing, the chain is modelled as the list of
frames seen from the scope. -/
abbrev FlagsGroup := List ScopeFrame

/-- JS `Map.get` on a string-keyed assoc list (first binding wins). -/
def strMapGet : List (String × ValueFlag) → String → Option ValueFlag
  | [], _ => none
  | (k, v) :: r, key => if k = key then some v else strMapGet r key

/-- JS `Map.set`: overwrite in place, else append. -/
def strMapSet (m : List (String × ValueFlag)) (key : String) (v : ValueFlag) :
    List (String × ValueFlag) :=
  if (strMapGet m key).isSome then m.map (fun p => if p.1 = key then (key, v) else p)
  else m ++ [(key, v)]

/-- JS `Set.add` on the flag set. -/
def setAddFlag (s : List ValueFlag) (f : ValueFlag) : List ValueFlag :=
  if f ∈ s then s else s ++ [f]

/-- Model of `FlagsGroup.getLong`: walk the scope chain. -/
def FlagsGroup.getLong : FlagsGroup → String → Option ValueFlag
  | [], _ => none
  | fr :: rest, key =>
    match strMapGet fr.map ("long:" ++ key) with
    | some f => some f
    | none => FlagsGroup.getLong rest key

/-- Model of `FlagsGroup.getShort`: walk the scope chain. -/
def FlagsGroup.getShort : FlagsGroup → String → Option ValueFlag
  | [], _ => none
  | fr :: rest, key =>
    match strMapGet fr.map ("short:" ++ key) with
    | some f => some f
    | none => FlagsGroup.getShort rest key

/-- Model of `FlagsGroup.add` (single flag): register the flag object and its
`flag:`/`long:`/`short:` keys in the own frame. -/
def FlagsGroup.add (g : FlagsGroup) (flag : ValueFlag) : FlagsGroup :=
  match g with
  | [] => []
  | fr :: rest =>
    let m1 := strMapSet fr.map ("flag:" ++ flag.name) flag
    let m2 := match flag.long with | some l => strMapSet m1 ("long:" ++ l) flag | none => m1
    let m3 := match flag.short with | some s => strMapSet m2 ("short:" ++ s) flag | none => m2
    ⟨setAddFlag fr.flags flag, m3⟩ :: rest

/-- Model of `FlagsGroup.addShortAlias`: the alias key is stored as given. -/
def FlagsGroup.addShortAlias (g : FlagsGroup) (flag : ValueFlag) (short : String) : FlagsGroup :=
  match g with
  | [] => []
  | fr :: rest =>
    ⟨setAddFlag fr.flags flag,
      strMapSet (strMapSet fr.map ("flag:" ++ flag.name) flag) ("short:" ++ short) flag⟩ :: rest

/-- The command tree of command.ts: a branching `GroupCommand` (with
subcommand map and optional direct handler) or a leaf `CommandAction`
(with positional parameter list and optional handler). `pathName`
carries the precomputed `getFullPathName()`; `hasAction` models
`action !== null` (handlers themselves are outside the embedding).
Subcommand map keys are stored exactly as passed to
`createGroup`/`createAction` (the source does not lower-case them). -/
inductive Command where
  | group (name : String) (pathName : String) (uniqueHelpFlag : ValueFlag)
      (flags : FlagsGroup) (subcommands : List (String × Command)) (hasAction : Bool)
  | action (name : String) (pathName : String) (uniqueHelpFlag : ValueFlag)
      (flags : FlagsGroup) (argumentsTypes : List ArgumentLike) (hasAction : Bool)

def Command.name : Command → String
  | .group n _ _ _ _ _ => n
  | .action n _ _ _ _ _ => n

def Command.pathName : Command → String
  | .group _ p _ _ _ _ => p
  | .action _ p _ _ _ _ => p

def Command.uniqueHelpFlag : Command → ValueFlag
  | .group _ _ h _ _ _ => h
  | .action _ _ h _ _ _ => h

def Command.flags : Command → FlagsGroup
  | .group _ _ _ f _ _ => f
  | .action _ _ _ f _ _ => f

def Command.hasAction : Command → Bool
  | .group _ _ _ _ _ a => a
  | .action _ _ _ _ _ a => a

/-- The help flag auto-registered by the `Command` constructor:
`new Flag('help', { short: '?', long: 'help' })`. Each command node
creates its own, hence the per-node id. -/
def mkHelpFlag (id : Nat) : ValueFlag := Flag.create id "help" (some "help") (some "?")

/-- The `Command` constructor body for the flag scope:
`new FlagsGroup(parent?.flags)`, `add(uniqueHelpFlag)`,
`addShortAlias(uniqueHelpFlag, 'h')`. -/
def newCommandFlags (parent : FlagsGroup) (hf : ValueFlag) : FlagsGroup :=
  FlagsGroup.addShortAlias (FlagsGroup.add ((⟨[], []⟩ : ScopeFrame) :: parent) hf) hf "h"

/-- A resolved flag map: `Map<ValueFlag, unknown>` keyed by flag object
identity; the stored `none` is the null placeholder meaning "use the
default at read time". -/
abbrev FlagMap := List (ValueFlag × Option JsValue)

def flagMapGet : FlagMap → ValueFlag → Option (Option JsValue)
  | [], _ => none
  | (g, v) :: r, f => if g = f then some v else flagMapGet r f

def flagMapSet (m : FlagMap) (f : ValueFlag) (v : Option JsValue) : FlagMap :=
  if (flagMapGet m f).isSome then m.map (fun p => if p.1 = f then (f, v) else p)
  else m ++ [(f, v)]

def flagKeys (m : FlagMap) : List ValueFlag := m.map (fun p => p.1)

/-- Model of `ParseResult` from commands-parser.ts. -/
structure ParseResult where
  command : Command
  args : List JsValue
  flags : FlagMap

/-- Model of `ParserError` from commands-parser.ts; `flagsSet = none` models the
constructor being called without the optional flags set. -/
structure ParserError where
  command : Command
  message : String
  argv : List String
  index : Nat
  flagsSet : Option (List ValueFlag)

/-- Model of `getValue(flag)`: `flags.get(flag) ?? flag.defaultValue` (both a
stored null placeholder and an absent entry fall back to the default). -/
def ParseResult.getValue (r : ParseResult) (flag : ValueFlag) : Option JsValue :=
  match flagMapGet r.flags flag with
  | some (some v) => some v
  | some none => flag.defaultValue
  | none => flag.defaultValue

/-- Model of `getExecutable()`: the source tests whether the property named action is in the
command and is a function (`typeof command.action === "function"`) — a property both command
variants carry, true exactly when the handler is non-null — and returns
`action.bind(null, this, ...this.args)`. The bound call is modelled as
the pair of bound arguments (the result and the positional values). -/
def ParseResult.getExecutable (r : ParseResult) : Option (ParseResult × List JsValue) :=
  if r.command.hasAction then some (r, r.args) else none

/-- Model of `FlagParseResult` from commands-parser.ts. -/
structure FlagParseResult where
  name : String
  isLong : Bool
  value : Option String
deriving DecidableEq, Repr

/-- Model of `String.prototype.indexOf` for a single character. -/
def idxOfEq : List Char → Char → Option Nat
  | [], _ => none
  | c :: r, t => if c = t then some 0 else (idxOfEq r t).map (fun n => n + 1)

/-- Model of `CommandsParser.parseFlag`: split a token into name, long/short
form and inline value. The short branch replaces a null-or-empty value
(`!value` in JS) by `argument.substring(2)`. -/
def CommandsParser.parseFlag (argument : String) : Option FlagParseResult :=
  match argument.toList with
  | c0 :: c1 :: rest =>
    if c0 ≠ '-' then none
    else
      let cs := c0 :: c1 :: rest
      let isLongBit := c1 = '-'
      let hasValueIndex := idxOfEq cs '='
      let value0 : Option String := hasValueIndex.map (fun i => String.mk (cs.drop (i + 1)))
      if isLongBit then
        let name := String.mk (match hasValueIndex with
          | some i => (cs.drop 2).take (i - 2)
          | none => cs.drop 2)
        some ⟨strToLower name, true, value0⟩
      else
        let name := String.mk [c1]
        let value :=
          if (value0 = none ∨ value0 = some "") ∧ cs.length > 2 then
            some (String.mk (cs.drop 2))
          else value0
        some ⟨strToLower name, false, value⟩
  | _ => none

/-- Outcome of `resolveFlag`: `softFail` is the source returning null
with `lastError` cleared (unknown flag), `hardFail msg` is the source
returning null after `setLastError(msg)`. -/
inductive FlagResolution where
  | resolved (flag : ValueFlag) (value : Option JsValue) (nextValueUsed : Bool)
  | softFail
  | hardFail (message : String)
deriving DecidableEq, Repr

/-- The scope lookup at the top of `resolveFlag`. -/
def flagScopeLookup (group : FlagsGroup) (flag : FlagParseResult) : Option ValueFlag :=
  if flag.isLong then group.getLong flag.name else group.getShort flag.name

/-- Model of `CommandsParser.resolveFlag`. Note the two JS truthiness tests: the
default is usable iff `FLAG_TYPE.defaultValue` is truthy, and a boolean
flag rejects an inline value iff `flag.value` is truthy (a nonempty
string). -/
def CommandsParser.resolveFlag (group : FlagsGroup) (flag : FlagParseResult)
    (next : Option String) : FlagResolution :=
  match flagScopeLookup group flag with
  | none => .softFail
  | some ft =>
    if ft.isValueBased then
      let vp : Option String × Bool :=
        match flag.value with
        | none => (next, true)
        | some v => (some v, false)
      match vp.1 with
      | none =>
        if jsTruthyOpt ft.defaultValue then .resolved ft none vp.2
        else .hardFail
          ("Flag with no default value, requires value to be set explicitly, flag: " ++ flag.name)
      | some v =>
        if ft.validator.isValid v then .resolved ft (some (ft.validator.coerce v)) vp.2
        else .hardFail
          ("Incorrect type passed as value for flag: " ++ flag.name ++ " value: " ++ v)
    else
      match flag.value with
      | some v =>
        if v ≠ "" then
          .hardFail ("Syntax error, this flag does not support values: " ++ flag.name
            ++ " value: " ++ v)
        else .resolved ft (some (.vBool true)) false
      | none => .resolved ft (some (.vBool true)) false

/-- Model of `getArgument(relative)`: `argv[index] ?? null`. -/
def getArg (argv : List String) (i : Nat) : Option String := argv[i]?

/-- JS truthiness of the peeked argument: both `null` and the empty
string fail the `if (!argument)` / `while ((argument = ...))` tests. -/
def jsArg (o : Option String) : Option String :=
  match o with
  | some s => if s = "" then none else some s
  | none => none

/-- Model of `argument.startsWith('-')`. -/
def startsWithDash (s : String) : Bool :=
  match s.toList with
  | '-' :: _ => true
  | _ => false

/-- Model of `command.subcommands.get(sub)`: keys compared verbatim. -/
def lookupSub : List (String × Command) → String → Option Command
  | [], _ => none
  | (k, c) :: r, key => if k = key then some c else lookupSub r key

/-- The flag-scanning `while` loop of `parseGroupCommand`. Returns the
collected flag map, the final cursor and the loop-breaking token
(`none` when the loop ended on a falsy argument, `some a` for the
`break` on a non-flag token). The fuel only bounds iterations; every
iteration advances the cursor, so `argv.length + 1` never runs out. -/
def groupFlagLoop : Nat → Command → FlagsGroup → List String → Nat → FlagMap →
    Except ParserError (FlagMap × Nat × Option String)
  | 0, _, _, _, i, acc => .ok (acc, i, none)
  | fuel + 1, cmd, g, argv, i, acc =>
    match jsArg (getArg argv i) with
    | none => .ok (acc, i, none)
    | some argument =>
      match CommandsParser.parseFlag argument with
      | none => .ok (acc, i, some argument)
      | some fp =>
        match CommandsParser.resolveFlag g fp (getArg argv (i + 1)) with
        | .softFail =>
          .error ⟨cmd, "Failed to resolve tag with name: " ++ fp.name, argv, i,
            some (flagKeys acc)⟩
        | .hardFail msg => .error ⟨cmd, msg, argv, i, some (flagKeys acc)⟩
        | .resolved ft v used =>
          groupFlagLoop fuel cmd g argv (if used then i + 2 else i + 1) (flagMapSet acc ft v)

/-- The token-scanning `while` loop of `parseActionCommand`: every
token is either consumed as a flag (soft failures fall back to
positionals) or pushed onto the positional list; hard resolution
failures abort. Returns positionals, flag map and final cursor. -/
def actionFlagLoop : Nat → Command → FlagsGroup → List String → Nat → List String → FlagMap →
    Except ParserError (List String × FlagMap × Nat)
  | 0, _, _, _, i, pos, acc => .ok (pos, acc, i)
  | fuel + 1, cmd, g, argv, i, pos, acc =>
    match jsArg (getArg argv i) with
    | none => .ok (pos, acc, i)
    | some argument =>
      match CommandsParser.parseFlag argument with
      | none => actionFlagLoop fuel cmd g argv (i + 1) (pos ++ [argument]) acc
      | some fp =>
        match CommandsParser.resolveFlag g fp (getArg argv (i + 1)) with
        | .softFail => actionFlagLoop fuel cmd g argv (i + 1) (pos ++ [argument]) acc
        | .hardFail msg => .error ⟨cmd, msg, argv, i + 1, some (flagKeys acc)⟩
        | .resolved ft v used =>
          actionFlagLoop fuel cmd g argv (if used then i + 2 else i + 1) pos (flagMapSet acc ft v)

/-- The positional-enforcement loop at the end of `parseActionCommand`:
walk the declared parameters against the collected positional tokens
(pre-validating before `enforce`, exactly as the source does), then
append the surplus positional tokens verbatim. -/
def enforceArgsLoop (cmd : Command) (argv : List String) (iEnd : Nat) (m : FlagMap)
    (positionals : List String) : List ArgumentLike → Nat → Except ParserError (List JsValue)
  | [], idx => .ok ((positionals.drop idx).map JsValue.vStr)
  | d :: rest, idx =>
    match positionals[idx]? with
    | none =>
      match d.defaultValue with
      | none =>
        .error ⟨cmd, "Missing required argument: " ++ cmd.pathName ++ " ... " ++ d.display,
          argv, iEnd, some (flagKeys m)⟩
      | some dv =>
        match enforceArgsLoop cmd argv iEnd m positionals rest (idx + 1) with
        | .ok l => .ok (dv :: l)
        | .error e => .error e
    | some pv =>
      if d.validator.isValid pv then
        match enforceArgsLoop cmd argv iEnd m positionals rest (idx + 1) with
        | .ok l => .ok (d.validator.coerce pv :: l)
        | .error e => .error e
      else .error ⟨cmd, "Invalid value: " ++ pv, argv, iEnd, some (flagKeys m)⟩

/-- The merge step after a successful subcommand parse: every flag the
outer level resolved that the inner result did not set is copied in. -/
def mergeOuterFlags (outer inner : FlagMap) : FlagMap :=
  outer.foldl (fun h p => if (flagMapGet h p.1).isSome then h else flagMapSet h p.1 p.2) inner

/-- Model of `Set.add` of each key into an error flag set. -/
def addFlagSet (s : List ValueFlag) (ks : List ValueFlag) : List ValueFlag :=
  ks.foldl (fun s k => if k ∈ s then s else s ++ [k]) s

/-- The `catch` branch of `parseGroupCommand`: outer-level flags are
added to the propagating error (creating the set if it was null). -/
def mergeErrorFlags (m : FlagMap) (e : ParserError) : ParserError :=
  ⟨e.command, e.message, e.argv, e.index,
    some (match e.flagsSet with
      | some s => addFlagSet s (flagKeys m)
      | none => flagKeys m)⟩

/-- Model of `CommandsParser.parse`, fuelled. The recursion into a subcommand
happens only after the cursor moved past the subcommand token, so the
depth of recursion is bounded by the number of tokens; the fuel-0
branch is unreachable from `CommandsParser.parse`. -/
def parseCmdF : Nat → List String → Command → Nat → Except ParserError ParseResult
  | 0, argv, cmd, i => .error ⟨cmd, "Unsupported command type", argv, i, none⟩
  | fuel + 1, argv, cmd, i =>
    match cmd with
    | .group _ path _ fl subs hasAct =>
      match jsArg (getArg argv i) with
      | none =>
        if hasAct then .ok ⟨cmd, [], []⟩
        else .error ⟨cmd, "Expected subcommand name, received none: " ++ path, argv, i, none⟩
      | some a0 =>
        match (if startsWithDash a0 then groupFlagLoop (argv.length + 1) cmd fl argv i []
               else .ok ([], i, some a0)) with
        | .error e => .error e
        | .ok (m, i2, stop) =>
          match stop with
          | none => .ok ⟨cmd, [], m⟩
          | some a =>
            let sub := strToLower a
            match lookupSub subs sub with
            | none =>
              .error ⟨cmd, "Unknown subcommand: " ++ path ++ " >>" ++ sub ++ "<<", argv, i2,
                some (flagKeys m)⟩
            | some c =>
              match parseCmdF fuel argv c (i2 + 1) with
              | .ok h => .ok ⟨h.command, h.args, mergeOuterFlags m h.flags⟩
              | .error e => .error (mergeErrorFlags m e)
    | .action _ _ _ fl argTypes _ =>
      match actionFlagLoop (argv.length + 1) cmd fl argv i [] [] with
      | .error e => .error e
      | .ok (positionals, m, iEnd) =>
        match enforceArgsLoop cmd argv iEnd m positionals argTypes 0 with
        | .ok finalArgs => .ok ⟨cmd, finalArgs, m⟩
        | .error e => .error e

/-- Model of `new CommandsParser(argv, index).parse(command)`. -/
def CommandsParser.parse (argv : List String) (index : Nat) (command : Command) :
    Except ParserError ParseResult :=
  parseCmdF (argv.length + 1) argv command index

/-- Whether a parse attempt succeeded (did not throw `ParserError`). -/
def parseOk (r : Except ParserError ParseResult) : Bool :=
  match r with
  | .ok _ => true
  | .error _ => false

/-- Whether a command node is a `GroupCommand`. -/
def Command.isGroup : Command → Bool
  | .group _ _ _ _ _ _ => true
  | .action _ _ _ _ _ _ => false

/-! Concrete command trees mirroring the scenarios of
commands-parser.test.ts. Distinct `id`s model the distinct flag objects
the source constructs (every `Command` constructor makes a fresh help
flag). -/

def demoHelpRoot : ValueFlag := mkHelpFlag 0
def demoHelpRun : ValueFlag := mkHelpFlag 1
def demoNameFlag : ValueFlag := ValueFlag.create 2 "name" .stringV none (some "name") (some "n")
def demoActiveFlag : ValueFlag := Flag.create 3 "active" (some "active") (some "b")
def demoRootFlags : FlagsGroup := newCommandFlags [] demoHelpRoot
def demoRunFlags : FlagsGroup :=
  ((newCommandFlags demoRootFlags demoHelpRun).add demoNameFlag).add demoActiveFlag
def demoRun : Command := .action "run" ". run" demoHelpRun demoRunFlags [] true
def demoRoot : Command := .group "." "." demoHelpRoot demoRootFlags [("run", demoRun)] false

/-- The parse result of `["--help", "run"]` on the demo tree: the help
flag object that got resolved belongs to the root group, not to the
resolved `run` command. -/
def c2BeforeRes : ParseResult := ⟨demoRun, [], [(demoHelpRoot, some (.vBool true))]⟩

def c3Help : ValueFlag := mkHelpFlag 10
def c3EmptyDefFlag : ValueFlag :=
  ValueFlag.create 11 "opt" .stringV (some (.vStr "")) (some "opt") none
def c3ZeroDefFlag : ValueFlag :=
  ValueFlag.create 12 "num" .numberV (some (.vNum 0)) (some "num") none
def c3Scope : FlagsGroup := ((newCommandFlags [] c3Help).add c3EmptyDefFlag).add c3ZeroDefFlag
def c3TruthyFlag : ValueFlag :=
  ValueFlag.create 13 "opt" .stringV (some (.vStr "fallback")) (some "opt") none
def c3TruthyScope : FlagsGroup := (newCommandFlags [] (mkHelpFlag 14)).add c3TruthyFlag

def c4Help : ValueFlag := mkHelpFlag 20
def c4Run : Command := .action "run" ". run" c4Help (newCommandFlags demoRootFlags c4Help) [] true
/-- Subcommand registered the way `createAction("Run", ...)` stores it:
the map key keeps its original case while the node name is lowered. -/
def c4UpperRoot : Command := .group "." "." demoHelpRoot demoRootFlags [("Run", c4Run)] false
def c4LowerRoot : Command := .group "." "." demoHelpRoot demoRootFlags [("run", c4Run)] false

def c5Help : ValueFlag := mkHelpFlag 30
/-- A `GroupCommand` whose direct handler is non-null. -/
def c5Grp : Command := .group "grp" "grp" c5Help (newCommandFlags [] c5Help) [] true
def c5GrpRes : ParseResult := ⟨c5Grp, [], []⟩
def c5EchoHelp : ValueFlag := mkHelpFlag 31
def c5EchoArg : ArgumentLike := ArgumentLike.create "value" .stringV none
def c5Echo : Command :=
  .action "echo" ". echo" c5EchoHelp (newCommandFlags demoRootFlags c5EchoHelp) [c5EchoArg] true
def c5EchoRoot : Command := .group "." "." demoHelpRoot demoRootFlags [("echo", c5Echo)] false
def c5EchoRes : ParseResult := ⟨c5Echo, [JsValue.vStr "hello"], []⟩

def c7Verbose : ValueFlag := Flag.create 40 "verbose" (some "verbose") (some "v")
def c7ConfigHelp : ValueFlag := mkHelpFlag 41
def c7ConfigFlags : FlagsGroup := (newCommandFlags [] c7ConfigHelp).add c7Verbose
def c7SetHelp : ValueFlag := mkHelpFlag 42
def c7Set : Command :=
  .action "set" "config set" c7SetHelp (newCommandFlags c7ConfigFlags c7SetHelp) [] true
def c7Config : Command := .group "config" "config" c7ConfigHelp c7ConfigFlags [("set", c7Set)] false

/-- The sign characters of a rendered decimal literal. -/
def signChars (neg : Bool) : List Char := if neg then ['-'] else []

/-- The fractional characters of a rendered decimal literal. -/
def fracChars (fp : List Char) : List Char := if fp.isEmpty then [] else '.' :: fp

/-- A rendered finite decimal numeral: optional minus sign, integer
digits, optional fractional digits. -/
def renderDecimal (neg : Bool) (ip fp : List Char) : String :=
  String.mk (signChars neg ++ ip ++ fracChars fp)

/-- The mathematical value denoted by a rendered decimal numeral. -/
def decSignedValue (neg : Bool) (ip fp : List Char) : ℚ :=
  (if neg then -1 else 1) *
    ((digitsToNat ip : ℚ) + (digitsToNat fp : ℚ) / pow10 fp.length)

/-- Definition following the words of the spec table row for the number
validator ("raw parses as a finite decimal (including fractional)"):
an optional sign, at least one integer digit, and an optional nonempty
fractional part. Used only to compare the spec wording against the
implemented `isValid`. -/
def specFiniteDecimal (s : String) : Bool :=
  let cs := (splitSign s.toList).2
  let ip := cs.takeWhile jsIsDigit
  let r1 := cs.dropWhile jsIsDigit
  !ip.isEmpty &&
    (match r1 with
     | [] => true
     | '.' :: r2 => !r2.isEmpty && r2.all jsIsDigit
     | _ => false)

/-- Claim C1: for the `run` action with a string flag (long `name`,
short `n`), the token sequences `run --name=Hello`, `run --name Hello`,
`run -nHello`, `run -n Hello` and `run -n=Hello` all parse successfully
and resolve the same flag object to the same value `"Hello"` in the
result flag map. -/
theorem C1_flag_form_equivalence :
    CommandsParser.parse ["run", "--name=Hello"] 0 demoRoot =
      .ok ⟨demoRun, [], [(demoNameFlag, some (.vStr "Hello"))]⟩ ∧
    CommandsParser.parse ["run", "--name", "Hello"] 0 demoRoot =
      .ok ⟨demoRun, [], [(demoNameFlag, some (.vStr "Hello"))]⟩ ∧
    CommandsParser.parse ["run", "-nHello"] 0 demoRoot =
      .ok ⟨demoRun, [], [(demoNameFlag, some (.vStr "Hello"))]⟩ ∧
    CommandsParser.parse ["run", "-n", "Hello"] 0 demoRoot =
      .ok ⟨demoRun, [], [(demoNameFlag, some (.vStr "Hello"))]⟩ ∧
    CommandsParser.parse ["run", "-n=Hello"] 0 demoRoot =
      .ok ⟨demoRun, [], [(demoNameFlag, some (.vStr "Hello"))]⟩ ∧
    ParseResult.getValue ⟨demoRun, [], [(demoNameFlag, some (.vStr "Hello"))]⟩ demoNameFlag =
      some (.vStr "Hello") :=
  ⟨rfl, rfl, rfl, rfl, rfl, rfl⟩

/-- Claim C2, counterexample: with the help token before the subcommand
name (`["--help", "run"]`), parsing succeeds and resolves `run`, but
the flag object mapped to true is the help flag of the root group; the
own help flag of the resolved command is absent from the map (its `getValue`
still yields the default `false`), contradicting the claim that the
help flag of the resolved command is mapped to true regardless of
position. -/
theorem C2_help_before_subcommand_cex :
    CommandsParser.parse ["--help", "run"] 0 demoRoot = .ok c2BeforeRes ∧
    c2BeforeRes.command = demoRun ∧
    demoRun.uniqueHelpFlag = demoHelpRun ∧
    flagMapGet c2BeforeRes.flags demoHelpRun = none ∧
    ParseResult.getValue c2BeforeRes demoHelpRun = some (.vBool false) ∧
    demoHelpRun ≠ demoHelpRoot :=
  ⟨rfl, rfl, rfl, rfl, rfl, by decide⟩

/-- Claim C2, amended: a help token (`--help`, `-h`, `-?`) resolves a
help flag to true wherever it appears among otherwise valid tokens, but
the flag object set is the one owned by the command in whose scope the
token was resolved: after the subcommand name (in any position among
the action token list) it is the own help flag of the resolved command,
while before the subcommand name it is the help flag object of the group
(a distinct object) that is merged into the final result. -/
theorem C2_help_scope_resolution :
    CommandsParser.parse ["run", "--help"] 0 demoRoot =
      .ok ⟨demoRun, [], [(demoHelpRun, some (.vBool true))]⟩ ∧
    CommandsParser.parse ["run", "-h"] 0 demoRoot =
      .ok ⟨demoRun, [], [(demoHelpRun, some (.vBool true))]⟩ ∧
    CommandsParser.parse ["run", "-?"] 0 demoRoot =
      .ok ⟨demoRun, [], [(demoHelpRun, some (.vBool true))]⟩ ∧
    CommandsParser.parse ["run", "x", "--help"] 0 demoRoot =
      .ok ⟨demoRun, [.vStr "x"], [(demoHelpRun, some (.vBool true))]⟩ ∧
    CommandsParser.parse ["-?"] 0 demoRoot =
      .ok ⟨demoRoot, [], [(demoHelpRoot, some (.vBool true))]⟩ ∧
    CommandsParser.parse ["--help", "run"] 0 demoRoot =
      .ok ⟨demoRun, [], [(demoHelpRoot, some (.vBool true))]⟩ :=
  ⟨rfl, rfl, rfl, rfl, rfl, rfl⟩

/-- Claim C3, counterexample: a value-based flag whose default is the
empty string (non-null and not `false`) invoked bare with no next token
does not resolve successfully — the JS truthiness test
`if (FLAG_TYPE.defaultValue)` rejects `""` and `0`, so resolution fails
with the requires-explicit-value error, contradicting the claim. -/
theorem C3_falsy_default_cex :
    c3EmptyDefFlag.defaultValue = some (.vStr "") ∧
    CommandsParser.resolveFlag c3Scope ⟨"opt", true, none⟩ none =
      .hardFail "Flag with no default value, requires value to be set explicitly, flag: opt" ∧
    c3ZeroDefFlag.defaultValue = some (.vNum 0) ∧
    CommandsParser.resolveFlag c3Scope ⟨"num", true, none⟩ none =
      .hardFail "Flag with no default value, requires value to be set explicitly, flag: num" :=
  ⟨rfl, rfl, rfl, rfl⟩

/-- Claim C5, counterexample: a `GroupCommand` with a non-null direct
handler produces a ParseResult whose `getExecutable` is non-null (the
source tests that `command.action` has function type, which holds for
group handlers too), contradicting the claim that a group command
always yields no executable. -/
theorem C5_group_handler_cex :
    c5Grp.isGroup = true ∧
    CommandsParser.parse [] 0 c5Grp = .ok c5GrpRes ∧
    c5GrpRes.getExecutable = some (c5GrpRes, []) :=
  ⟨rfl, rfl, rfl⟩

/-- Claim C6, counterexample: the boolean flag `active` given the long
form with an empty inline value (`--active=`) is not a fatal error —
the source rejects an inline value only when `flag.value` is truthy,
and the empty string is falsy — so the parse succeeds and resolves the
flag to true, contradicting the claim that any form containing `=` is
fatal. -/
theorem C6_empty_inline_value_cex :
    CommandsParser.parseFlag "--active=" = some ⟨"active", true, some ""⟩ ∧
    CommandsParser.parse ["run", "--active="] 0 demoRoot =
      .ok ⟨demoRun, [], [(demoActiveFlag, some (.vBool true))]⟩ :=
  ⟨rfl, rfl⟩

/-- Claim C8, counterexample: `NumberTypeValidator.isValid` is
`!isNaN(Number(input))`, which accepts `"Infinity"` even though that
string does not denote a finite decimal number (its parsed value is
positive infinity), so `isValid` does not accept exactly the finite
decimal strings. -/
theorem C8_number_validator_cex :
    ValueTypeValidator.isValid .numberV "Infinity" = true ∧
    specFiniteDecimal "Infinity" = false ∧
    jsToNumber "Infinity" = .inf false :=
  ⟨rfl, rfl, rfl⟩

/-- Claim C10: the integer validator accepts `"1e2"` (its `Number`
conversion 100 is a mathematical integer) and `"0x10"` (value 16), yet
`coerce` applies `parseInt(input, 10)` and returns 1 and 0
respectively — a value different from the one that was validated. -/
theorem C10_int_validator_divergence :
    ValueTypeValidator.isValid .intV "1e2" = true ∧
    jsToNumber "1e2" = .val 100 ∧
    ValueTypeValidator.coerce .intV "1e2" = .vNum 1 ∧
    ValueTypeValidator.coerce .intV "1e2" ≠ jsNumToValue (jsToNumber "1e2") ∧
    ValueTypeValidator.isValid .intV "0x10" = true ∧
    jsToNumber "0x10" = .val 16 ∧
    ValueTypeValidator.coerce .intV "0x10" = .vNum 0 :=
  ⟨rfl, by decide, rfl, by decide, rfl, by decide, rfl⟩

/-- Claim C3, amended: for a value-based flag invoked with no inline
value and no next token, resolution succeeds with the null placeholder
exactly when the field `defaultValue` of the flag is truthy in the JS sense
(non-null and not `false`, and also not `""`, `0` or NaN), and
`getValue` on the resulting entry then returns that default; when the
default is null or falsy (including the empty string and 0) the parse
fails fatally with the requires-explicit-value error. -/
theorem C3_default_truthiness :
    ∀ (g : FlagsGroup) (fp : FlagParseResult) (ft : ValueFlag) (cmd : Command),
      flagScopeLookup g fp = some ft → ft.isValueFlag = true → fp.value = none →
      (jsTruthyOpt ft.defaultValue = true →
        CommandsParser.resolveFlag g fp none = .resolved ft none true ∧
        ParseResult.getValue ⟨cmd, [], flagMapSet [] ft none⟩ ft = ft.defaultValue) ∧
      (jsTruthyOpt ft.defaultValue = false →
        CommandsParser.resolveFlag g fp none =
          .hardFail ("Flag with no default value, requires value to be set explicitly, flag: "
            ++ fp.name)) := by
  intro g fp ft cmd hl hv hval
  constructor
  · intro ht
    constructor
    · simp only [CommandsParser.resolveFlag, hl, ValueFlag.isValueBased, hv, hval, ht, if_true]
    · simp [ParseResult.getValue, flagMapSet, flagMapGet]
  · intro hf
    simp [CommandsParser.resolveFlag, hl, ValueFlag.isValueBased, hv, hval, hf]

/-- Claim C3, witness instantiation: a flag with the truthy default
`"fallback"` invoked bare resolves to the null placeholder and
`getValue` yields the default. -/
theorem C3_default_truthiness_witness :
    CommandsParser.resolveFlag c3TruthyScope ⟨"opt", true, none⟩ none =
      .resolved c3TruthyFlag none true ∧
    ParseResult.getValue ⟨c5Grp, [], flagMapSet [] c3TruthyFlag none⟩ c3TruthyFlag =
      some (.vStr "fallback") := by
  have h := (C3_default_truthiness c3TruthyScope ⟨"opt", true, none⟩ c3TruthyFlag c5Grp
    (by decide) rfl rfl).1 (by decide)
  exact ⟨h.1, by rw [h.2]; rfl⟩

/-- Claim C5, amended: `getExecutable` returns the bound thunk
(handler applied to the result and the positional values in
declaration order) exactly when the resolved command has a non-null
handler — whether it is an action command or a group command with a
direct handler — and returns null exactly when the handler is null. -/
theorem C5_getExecutable_handler :
    (∀ r : ParseResult, r.command.hasAction = true →
      r.getExecutable = some (r, r.args)) ∧
    (∀ r : ParseResult, r.command.hasAction = false → r.getExecutable = none) ∧
    (CommandsParser.parse ["echo", "hello"] 0 c5EchoRoot = .ok c5EchoRes ∧
      c5EchoRes.getExecutable = some (c5EchoRes, [.vStr "hello"])) := by
  refine ⟨?_, ?_, rfl, rfl⟩
  · intro r h
    simp [ParseResult.getExecutable, h]
  · intro r h
    simp [ParseResult.getExecutable, h]

/-- Claim C5, witness instantiation: the echo result has a handler and
yields the bound executable. -/
theorem C5_getExecutable_handler_witness :
    ParseResult.getExecutable c5EchoRes = some (c5EchoRes, c5EchoRes.args) :=
  C5_getExecutable_handler.1 c5EchoRes rfl

/-- Claim C6, amended: for a boolean (non-value-based) flag, resolution
is fatal ("does not support values") exactly when a nonempty inline
value was supplied; bare presence — and also the long form with an
empty inline value such as `--active=` — resolves the flag to true.
The concrete conjuncts exercise both directions on the demo tree. -/
theorem C6_boolean_inline_value :
    (∀ (g : FlagsGroup) (fp : FlagParseResult) (ft : ValueFlag) (next : Option String),
      flagScopeLookup g fp = some ft → ft.isValueFlag = false →
      CommandsParser.resolveFlag g fp next =
        (match fp.value with
         | some v =>
           if v ≠ "" then
             .hardFail ("Syntax error, this flag does not support values: " ++ fp.name
               ++ " value: " ++ v)
           else .resolved ft (some (.vBool true)) false
         | none => .resolved ft (some (.vBool true)) false)) ∧
    parseOk (CommandsParser.parse ["run", "--active=yes"] 0 demoRoot) = false ∧
    CommandsParser.parse ["run", "--active"] 0 demoRoot =
      .ok ⟨demoRun, [], [(demoActiveFlag, some (.vBool true))]⟩ := by
  refine ⟨?_, rfl, rfl⟩
  intro g fp ft next hl hv
  simp only [CommandsParser.resolveFlag, hl, ValueFlag.isValueBased, hv, Bool.false_eq_true,
    if_false]

/-- Claim C6, witness instantiation: a nonempty inline value on the
boolean flag `active` is fatal. -/
theorem C6_boolean_inline_value_witness :
    CommandsParser.resolveFlag demoRunFlags ⟨"active", true, some "yes"⟩ none =
      .hardFail "Syntax error, this flag does not support values: active value: yes" := by
  have h := C6_boolean_inline_value.1 demoRunFlags ⟨"active", true, some "yes"⟩ demoActiveFlag
    none (by decide) rfl
  rw [h]; decide

/-- Claim C4, counterexample: a subcommand registered under a key that
is not all-lowercase (`createAction("Run", ...)` stores the key
verbatim) is never matched: the parser lowercases the token before the
lookup, so both `Run` and `run` fail with "unknown subcommand", while
the same tree registered under `run` accepts any case of the token. -/
theorem C4_uppercase_subcommand_cex :
    lookupSub [("Run", c4Run)] "run" = none ∧
    parseOk (CommandsParser.parse ["Run"] 0 c4UpperRoot) = false ∧
    parseOk (CommandsParser.parse ["run"] 0 c4UpperRoot) = false ∧
    parseOk (CommandsParser.parse ["run"] 0 c4LowerRoot) = true ∧
    parseOk (CommandsParser.parse ["RUN"] 0 c4LowerRoot) = true :=
  ⟨rfl, rfl, rfl, rfl, rfl⟩


theorem strMk_toList (s : String) : String.mk s.toList = s := rfl

theorem strToList_append (a b : String) : (a ++ b).toList = a.toList ++ b.toList := rfl

theorem take_len_append (l1 l2 : List Char) : (l1 ++ l2).take l1.length = l1 := by
  induction l1 with
  | nil => rfl
  | cons c r ih => simp [ih]

theorem drop_len_append (l1 l2 : List Char) (k : Nat) :
    (l1 ++ l2).drop (l1.length + k) = l2.drop k := by
  induction l1 with
  | nil => simp
  | cons c r ih => simp [Nat.succ_add, ih]

theorem idxOfEq_notin (t : Char) (l r : List Char) (h : t ∉ l) :
    idxOfEq (l ++ t :: r) t = some l.length := by
  induction l with
  | nil => simp [idxOfEq]
  | cons c cl ih =>
    have hc : ¬(c = t) := by
      intro e
      exact h (e ▸ List.mem_cons_self c cl)
    have ih2 := ih (fun hm => h (List.mem_cons_of_mem _ hm))
    simp [idxOfEq, hc, ih2]

/-- Evaluating `parseFlag` on a well-formed long token `--name=value`: the name is
lower-cased, the inline value is everything after the first `=`. -/
theorem parseFlag_long_general (n v : String) (hn : '=' ∉ n.toList) :
    CommandsParser.parseFlag ("--" ++ n ++ "=" ++ v) = some ⟨strToLower n, true, some v⟩ := by
  have hcs : ("--" ++ n ++ "=" ++ v).toList = '-' :: '-' :: (n.toList ++ '=' :: v.toList) := by
    simp [strToList_append]
  have h1 : idxOfEq (n.toList ++ '=' :: v.toList) '=' = some n.toList.length :=
    idxOfEq_notin '=' n.toList v.toList hn
  have hidx : idxOfEq ('-' :: '-' :: (n.toList ++ '=' :: v.toList)) '=' =
      some (n.toList.length + 1 + 1) := by
    simpa [idxOfEq] using h1
  have hdrop : List.drop (n.toList.length + 1 + 1 + 1)
      ('-' :: '-' :: (n.toList ++ '=' :: v.toList)) = v.toList := by
    calc List.drop (n.toList.length + 1 + 1 + 1) ('-' :: '-' :: (n.toList ++ '=' :: v.toList))
        = List.drop (n.toList.length + 1) (n.toList ++ '=' :: v.toList) := rfl
      _ = List.drop 1 ('=' :: v.toList) := drop_len_append _ _ 1
      _ = v.toList := rfl
  have htake : List.take (n.toList.length + 1 + 1 - 2)
      (List.drop 2 ('-' :: '-' :: (n.toList ++ '=' :: v.toList))) = n.toList := by
    calc List.take (n.toList.length + 1 + 1 - 2)
          (List.drop 2 ('-' :: '-' :: (n.toList ++ '=' :: v.toList)))
        = List.take n.toList.length (n.toList ++ '=' :: v.toList) := rfl
      _ = n.toList := take_len_append _ _
  have hdrop2 : List.drop (n.length + 1) (n.data ++ '=' :: v.data) = v.data := by
    have h2 := drop_len_append n.data ('=' :: v.data) 1
    simpa using h2
  simp only [CommandsParser.parseFlag, hcs, hidx, Option.map_some]
  simp [hdrop, htake, strMk_toList, hdrop2]

/-- Evaluating `parseFlag` on the short token `-x=`: the inline value the caller
receives is the separator itself. -/
theorem parseFlag_short_eq_sep (x : Char) (hx : x ≠ '-') :
    CommandsParser.parseFlag (String.mk ['-', x, '=']) =
      some ⟨strToLower (String.mk [x]), false, some "="⟩ := by
  by_cases hxe : x = '='
  · subst hxe
    decide
  · simp [CommandsParser.parseFlag, idxOfEq, hx, hxe]

/-- Claim C9: `parseFlag` treats the empty inline value asymmetrically
between short and long forms: for every short name `x` the token `-x=`
yields the inline value `"="` (the short branch re-reads
`argument.substring(2)` because the parsed value `""` is falsy), while
the long token `--name=` yields the inline value `""`; the two values
differ, so the empty-inline-value forms are not equivalent at the
`parseFlag` interface. -/
theorem C9_parseFlag_empty_inline_asymmetry :
    (∀ x : Char, x ≠ '-' →
      CommandsParser.parseFlag (String.mk ['-', x, '=']) =
        some ⟨strToLower (String.mk [x]), false, some "="⟩) ∧
    (∀ n : String, '=' ∉ n.toList →
      CommandsParser.parseFlag ("--" ++ n ++ "=") = some ⟨strToLower n, true, some ""⟩) ∧
    ("=" : String) ≠ "" := by
  refine ⟨parseFlag_short_eq_sep, ?_, by decide⟩
  intro n hn
  have h := parseFlag_long_general n "" hn
  simpa using h

/-- Claim C9, witness instantiation at the flag name `n`. -/
theorem C9_parseFlag_empty_inline_asymmetry_witness :
    CommandsParser.parseFlag "-n=" = some ⟨"n", false, some "="⟩ ∧
    CommandsParser.parseFlag "--name=" = some ⟨"name", true, some ""⟩ := by
  have h1 := C9_parseFlag_empty_inline_asymmetry.1 'n' (by decide)
  have h2 := C9_parseFlag_empty_inline_asymmetry.2.1 "name" (by decide)
  constructor
  · rw [show ("-n=" : String) = String.mk ['-', 'n', '='] from by decide]
    rw [h1]
    decide
  · rw [show ("--name=" : String) = "--" ++ "name" ++ "=" from by decide]
    rw [h2]
    decide

/-- Unfolding lemma: a group parse whose first token is a truthy
non-flag token descends into the subcommand it names, with no
outer-level flags. -/
theorem parseCmdF_group_nonflag (fuel : Nat) (argv : List String) (i : Nat)
    (nm path : String) (hf : ValueFlag) (fl : FlagsGroup) (subs : List (String × Command))
    (hA : Bool) (a0 : String) (c : Command)
    (h1 : getArg argv i = some a0) (h2 : a0 ≠ "") (h3 : startsWithDash a0 = false)
    (h5 : lookupSub subs (strToLower a0) = some c) :
    parseCmdF (fuel + 1) argv (.group nm path hf fl subs hA) i =
      (match parseCmdF fuel argv c (i + 1) with
       | .ok h => .ok ⟨h.command, h.args, mergeOuterFlags [] h.flags⟩
       | .error e => .error (mergeErrorFlags [] e)) := by
  simp only [parseCmdF, h1]
  simp [jsArg, h2, h3, h5]

/-- Unfolding lemma: a group parse whose first token is a flag token
runs the flag loop; when the loop breaks on a subcommand token the
parse descends into it and merges the outer flags into the result. -/
theorem parseCmdF_group_flags (fuel : Nat) (argv : List String) (i : Nat)
    (nm path : String) (hf : ValueFlag) (fl : FlagsGroup) (subs : List (String × Command))
    (hA : Bool) (a0 : String) (m : FlagMap) (i2 : Nat) (a : String) (c : Command)
    (h1 : getArg argv i = some a0) (h2 : a0 ≠ "") (h3 : startsWithDash a0 = true)
    (h4 : groupFlagLoop (argv.length + 1) (Command.group nm path hf fl subs hA) fl argv i [] =
      .ok (m, i2, some a))
    (h5 : lookupSub subs (strToLower a) = some c) :
    parseCmdF (fuel + 1) argv (.group nm path hf fl subs hA) i =
      (match parseCmdF fuel argv c (i2 + 1) with
       | .ok h => .ok ⟨h.command, h.args, mergeOuterFlags m h.flags⟩
       | .error e => .error (mergeErrorFlags m e)) := by
  simp only [parseCmdF, h1]
  simp [jsArg, h2, h3, h4, h5]

/-- Claim C4, amended: flag-name matching is fully case-insensitive
(the name portion of a flag token is lower-cased by `parseFlag`, and flag
long/short names are lower-cased at construction), and a subcommand
token of any letter case resolves — but only because the token is
lower-cased before the lookup: matching therefore reaches exactly the
subcommands whose registration key is all-lowercase (see the
counterexample for an uppercase registration key). -/
theorem C4_case_insensitive_matching :
    (∀ (n v : String), '=' ∉ n.toList →
      CommandsParser.parseFlag ("--" ++ n ++ "=" ++ v) = some ⟨strToLower n, true, some v⟩) ∧
    (∀ t : String, strToLower t = "run" →
      CommandsParser.parse [t] 0 c4LowerRoot = .ok ⟨c4Run, [], []⟩) := by
  refine ⟨parseFlag_long_general, ?_⟩
  intro t h
  have hmap : t.toList.map Char.toLower = ['r', 'u', 'n'] := congrArg String.toList h
  rcases hl : t.toList with _ | ⟨a, _ | ⟨b, _ | ⟨c, rest⟩⟩⟩ <;> rw [hl] at hmap <;> simp at hmap
  obtain ⟨ha, hb, hc, hrest⟩ := hmap
  subst hrest
  have hne : t ≠ "" := by
    intro he
    rw [he] at hl
    simp at hl
  have haDash : a ≠ '-' := by
    intro e
    rw [e] at ha
    exact absurd ha (by decide)
  have hstart : startsWithDash t = false := by
    unfold startsWithDash
    rw [hl]
    split
    · rename_i heq
      exact absurd (List.cons.inj heq).1 haDash
    · rfl
  have hrec : parseCmdF 1 [t] c4Run 1 = .ok ⟨c4Run, [], []⟩ := rfl
  have hsub : lookupSub [("run", c4Run)] (strToLower t) = some c4Run := by
    rw [h]
    rfl
  have hmain := parseCmdF_group_nonflag 1 [t] 0 "." "." demoHelpRoot demoRootFlags
    [("run", c4Run)] false t c4Run rfl hne hstart hsub
  have hstep : CommandsParser.parse [t] 0 c4LowerRoot = parseCmdF (1 + 1) [t] c4LowerRoot 0 := rfl
  rw [hstep]
  show parseCmdF (1 + 1) [t] (Command.group "." "." demoHelpRoot demoRootFlags
    [("run", c4Run)] false) 0 = _
  rw [hmain, hrec]
  rfl

/-- Claim C4, witness instantiation: `--NAME=Test` resolves as
`--name=Test`, and the token `RUN` reaches the subcommand registered
under the all-lowercase key `run`. -/
theorem C4_case_insensitive_matching_witness :
    CommandsParser.parseFlag "--NAME=Test" = some ⟨"name", true, some "Test"⟩ ∧
    CommandsParser.parse ["RUN"] 0 c4LowerRoot = .ok ⟨c4Run, [], []⟩ := by
  constructor
  · have h := C4_case_insensitive_matching.1 "NAME" "Test" (by decide)
    rw [show ("--NAME=Test" : String) = "--" ++ "NAME" ++ "=" ++ "Test" from by decide, h]
    decide
  · exact C4_case_insensitive_matching.2 "RUN" (by decide)

theorem flagMapGet_map_repl (m : FlagMap) (f : ValueFlag) (v : Option JsValue) :
    flagMapGet (m.map (fun p => if p.1 = f then (f, v) else p)) f =
      (flagMapGet m f).map (fun _ => v) := by
  induction m with
  | nil => rfl
  | cons p rest ih =>
    simp only [List.map_cons]
    by_cases hp : p.1 = f
    · rw [if_pos hp]
      simp [flagMapGet, hp, ih]
    · rw [if_neg hp]
      simp [flagMapGet, hp, ih]

theorem flagMapGet_map_repl_other (m : FlagMap) (f g : ValueFlag) (v : Option JsValue)
    (h : g ≠ f) :
    flagMapGet (m.map (fun p => if p.1 = f then (f, v) else p)) g = flagMapGet m g := by
  induction m with
  | nil => rfl
  | cons p rest ih =>
    simp only [List.map_cons]
    by_cases hp : p.1 = f
    · have hfg : ¬(f = g) := fun e => h e.symm
      have hpg : ¬(p.1 = g) := by
        rw [hp]
        exact hfg
      rw [if_pos hp]
      simp [flagMapGet, hfg, hpg, ih]
    · rw [if_neg hp]
      by_cases hg : p.1 = g
      · simp [flagMapGet, hg]
      · simp [flagMapGet, hg, ih]

theorem flagMapGet_append (m1 m2 : FlagMap) (f : ValueFlag) :
    flagMapGet (m1 ++ m2) f =
      (match flagMapGet m1 f with
       | some v => some v
       | none => flagMapGet m2 f) := by
  induction m1 with
  | nil => rfl
  | cons p rest ih =>
    by_cases hp : p.1 = f
    · simp [flagMapGet, hp]
    · simp [flagMapGet, hp, ih]

theorem flagMapGet_set_self (m : FlagMap) (f : ValueFlag) (v : Option JsValue) :
    flagMapGet (flagMapSet m f v) f = some v := by
  unfold flagMapSet
  by_cases hp : (flagMapGet m f).isSome
  · rw [if_pos hp, flagMapGet_map_repl]
    rcases ho : flagMapGet m f with _ | w
    · rw [ho] at hp
      simp at hp
    · simp
  · rw [if_neg hp, flagMapGet_append]
    rcases ho : flagMapGet m f with _ | w
    · simp [flagMapGet]
    · rw [ho] at hp
      simp at hp

theorem flagMapGet_set_other (m : FlagMap) (f g : ValueFlag) (v : Option JsValue) (h : g ≠ f) :
    flagMapGet (flagMapSet m f v) g = flagMapGet m g := by
  unfold flagMapSet
  by_cases hp : (flagMapGet m f).isSome
  · rw [if_pos hp, flagMapGet_map_repl_other _ _ _ _ h]
  · rw [if_neg hp, flagMapGet_append]
    have hfg : ¬(f = g) := fun e => h e.symm
    rcases ho : flagMapGet m g with _ | w
    · simp [ho, flagMapGet, hfg]
    · simp [ho]

theorem flagMapGet_mergeOuterFlags (outer inner : FlagMap) (f : ValueFlag) :
    flagMapGet (mergeOuterFlags outer inner) f =
      (match flagMapGet inner f with
       | some v => some v
       | none => flagMapGet outer f) := by
  unfold mergeOuterFlags
  induction outer generalizing inner with
  | nil =>
    rcases h : flagMapGet inner f with _ | w <;> simp [List.foldl, h, flagMapGet]
  | cons p rest ih =>
    simp only [List.foldl]
    rw [ih]
    by_cases hp : (flagMapGet inner p.1).isSome
    · rw [if_pos hp]
      rcases h : flagMapGet inner f with _ | w
      · by_cases hf : p.1 = f
        · rw [hf, h] at hp
          simp at hp
        · simp [h, flagMapGet, hf]
      · simp [h]
    · rw [if_neg hp]
      by_cases hf : p.1 = f
      · subst hf
        rw [flagMapGet_set_self]
        rcases h : flagMapGet inner p.1 with _ | w
        · simp [flagMapGet]
        · rw [h] at hp
          simp at hp
      · rw [flagMapGet_set_other _ _ _ _ (fun e => hf e.symm)]
        rcases h : flagMapGet inner f with _ | w
        · simp [h, flagMapGet, hf]
        · simp [h]

/-- Claim C7: for every parse that enters a group with a flag token,
resolves outer-level flags, then descends through a subcommand and
succeeds, the final result carries the inner result extended with every
outer-resolved flag the inner parse did not already set (same flag
object identity); a flag set by both keeps the inner value. -/
theorem C7_outer_flag_merge :
    ∀ (argv : List String) (i : Nat) (nm path : String) (hf : ValueFlag) (fl : FlagsGroup)
      (subs : List (String × Command)) (hA : Bool) (a0 : String) (m : FlagMap) (i2 : Nat)
      (a : String) (c : Command) (r : ParseResult),
      getArg argv i = some a0 → a0 ≠ "" → startsWithDash a0 = true →
      groupFlagLoop (argv.length + 1) (Command.group nm path hf fl subs hA) fl argv i [] =
        .ok (m, i2, some a) →
      lookupSub subs (strToLower a) = some c →
      parseCmdF argv.length argv c (i2 + 1) = .ok r →
      CommandsParser.parse argv i (Command.group nm path hf fl subs hA) =
        .ok ⟨r.command, r.args, mergeOuterFlags m r.flags⟩ ∧
      ∀ f, flagMapGet (mergeOuterFlags m r.flags) f =
        (match flagMapGet r.flags f with
         | some v => some v
         | none => flagMapGet m f) := by
  intro argv i nm path hf fl subs hA a0 m i2 a c r h1 h2 h3 h4 h5 h6
  constructor
  · unfold CommandsParser.parse
    rw [parseCmdF_group_flags argv.length argv i nm path hf fl subs hA a0 m i2 a c h1 h2 h3 h4 h5]
    rw [h6]
  · intro f
    exact flagMapGet_mergeOuterFlags m r.flags f

/-- Claim C7, witness instantiation: `config --verbose set` propagates
the group-level `verbose` flag into the result of the `set` parse. -/
theorem C7_outer_flag_merge_witness :
    CommandsParser.parse ["--verbose", "set"] 0 c7Config =
      .ok ⟨c7Set, [], mergeOuterFlags [(c7Verbose, some (.vBool true))] []⟩ ∧
    flagMapGet (mergeOuterFlags [(c7Verbose, some (.vBool true))] []) c7Verbose =
      some (some (.vBool true)) := by
  have h := C7_outer_flag_merge ["--verbose", "set"] 0 "config" "config" c7ConfigHelp
    c7ConfigFlags [("set", c7Set)] false "--verbose" [(c7Verbose, some (.vBool true))] 1 "set"
    c7Set ⟨c7Set, [], []⟩ rfl (by decide) rfl rfl rfl rfl
  refine ⟨h.1, ?_⟩
  rw [h.2 c7Verbose]
  rfl

theorem digit_ne {c d : Char} (h : jsIsDigit c = true) (h2 : jsIsDigit d = false) : c ≠ d := by
  intro e
  rw [e] at h
  rw [h] at h2
  simp at h2

theorem jsIsWs_of_digit {c : Char} (h : jsIsDigit c = true) : jsIsWs c = false := by
  have hb : 48 ≤ c.toNat ∧ c.toNat ≤ 57 := by simpa [jsIsDigit] using h
  have h1 : c ≠ ' ' := digit_ne h (by decide)
  have h2 : c ≠ '\t' := digit_ne h (by decide)
  have h3 : c ≠ '\n' := digit_ne h (by decide)
  have h4 : c ≠ '\r' := digit_ne h (by decide)
  have h5 : c.toNat ≠ 11 := by omega
  have h6 : c.toNat ≠ 12 := by omega
  simp [jsIsWs, h1, h2, h3, h4, h5, h6]

theorem dropWhile_of_all_neg {p : Char → Bool} {l : List Char}
    (h : ∀ c ∈ l, p c = false) : l.dropWhile p = l := by
  induction l with
  | nil => rfl
  | cons c r ih =>
    have hc : ¬(p c = true) := by simp [h c (List.mem_cons_self c r)]
    rw [List.dropWhile_cons_of_neg hc]

theorem trim_of_no_ws {l : List Char} (h : ∀ c ∈ l, jsIsWs c = false) : trimWs l = l := by
  unfold trimWs
  rw [dropWhile_of_all_neg h]
  rw [dropWhile_of_all_neg (fun c hc => h c (List.mem_reverse.1 hc))]
  exact List.reverse_reverse l

theorem takeWhile_append_all {p : Char → Bool} {l1 : List Char} (l2 : List Char)
    (h : ∀ c ∈ l1, p c = true) : (l1 ++ l2).takeWhile p = l1 ++ l2.takeWhile p := by
  induction l1 with
  | nil => rfl
  | cons c r ih =>
    have hc : p c = true := h c (List.mem_cons_self c r)
    simp [List.takeWhile_cons_of_pos hc, ih (fun c hc => h c (List.mem_cons_of_mem _ hc))]

theorem dropWhile_append_all {p : Char → Bool} {l1 : List Char} (l2 : List Char)
    (h : ∀ c ∈ l1, p c = true) : (l1 ++ l2).dropWhile p = l2.dropWhile p := by
  induction l1 with
  | nil => rfl
  | cons c r ih =>
    have hc : p c = true := h c (List.mem_cons_self c r)
    simp [List.dropWhile_cons_of_pos hc, ih (fun c hc => h c (List.mem_cons_of_mem _ hc))]

theorem takeWhile_all {p : Char → Bool} {l : List Char} (h : ∀ c ∈ l, p c = true) :
    l.takeWhile p = l := by
  have h2 := takeWhile_append_all (p := p) [] h
  simpa using h2

theorem dropWhile_all {p : Char → Bool} {l : List Char} (h : ∀ c ∈ l, p c = true) :
    l.dropWhile p = [] := by
  have h2 := dropWhile_append_all (p := p) [] h
  simpa using h2

theorem radixOf_of_digit {c : Char} (h : jsIsDigit c = true) : radixOf c = none := by
  have h1 : c ≠ 'x' := digit_ne h (by decide)
  have h2 : c ≠ 'X' := digit_ne h (by decide)
  have h3 : c ≠ 'o' := digit_ne h (by decide)
  have h4 : c ≠ 'O' := digit_ne h (by decide)
  have h5 : c ≠ 'b' := digit_ne h (by decide)
  have h6 : c ≠ 'B' := digit_ne h (by decide)
  simp [radixOf, h1, h2, h3, h4, h5, h6]

theorem splitSign_digit {d : Char} (r : List Char) (h : jsIsDigit d = true) :
    splitSign (d :: r) = (false, d :: r) := by
  have h1 : d ≠ '-' := digit_ne h (by decide)
  have h2 : d ≠ '+' := digit_ne h (by decide)
  simp [splitSign, h1, h2]

theorem parseNumericLit_eq_signed {cs : List Char}
    (h : ∀ c, cs[1]? = some c → radixOf c = none) :
    parseNumericLit cs = parseSignedDec cs := by
  rcases cs with _ | ⟨c0, _ | ⟨c1, rest⟩⟩
  · rfl
  · rfl
  · simp only [parseNumericLit]
    by_cases h0 : c0 = '0'
    · rw [if_pos h0, h c1 (by simp)]
    · rw [if_neg h0]

theorem parseUDec_render (ip fp : List Char) (hipne : ip ≠ [])
    (hip : ∀ c ∈ ip, jsIsDigit c = true) (hfp : ∀ c ∈ fp, jsIsDigit c = true) :
    parseUDec (ip ++ fracChars fp) = some (decValue ip fp 0) := by
  have hipe : ip.isEmpty = false := by
    rcases ip with _ | ⟨d, r⟩
    · exact absurd rfl hipne
    · rfl
  rcases hf : fp with _ | ⟨f0, fr⟩
  · subst hf
    simp only [fracChars, List.isEmpty_nil, if_pos, List.append_nil]
    unfold parseUDec
    rw [takeWhile_all hip, dropWhile_all hip]
    simp [hipe]
    exact ⟨0, rfl, rfl⟩
  · rw [← hf]
    have hfc : fracChars fp = '.' :: fp := by
      rw [hf]
      simp [fracChars]
    rw [hfc]
    unfold parseUDec
    have hdot : jsIsDigit '.' = false := by decide
    rw [takeWhile_append_all _ hip, dropWhile_append_all _ hip]
    rw [List.takeWhile_cons_of_neg (by simp [hdot]), List.dropWhile_cons_of_neg (by simp [hdot])]
    simp only [List.append_nil]
    rw [takeWhile_all hfp, dropWhile_all hfp]
    simp [hipe]
    exact ⟨0, rfl, rfl⟩

theorem parseSignedDec_render (neg : Bool) (ip fp : List Char) (hipne : ip ≠ [])
    (hip : ∀ c ∈ ip, jsIsDigit c = true) (hfp : ∀ c ∈ fp, jsIsDigit c = true) :
    parseSignedDec (signChars neg ++ ip ++ fracChars fp) =
      .val (if neg then -(decValue ip fp 0) else decValue ip fp 0) := by
  rcases ip with _ | ⟨d, ip'⟩
  · exact absurd rfl hipne
  have hd : jsIsDigit d = true := hip d (List.mem_cons_self d ip')
  have hne : (d :: (ip' ++ fracChars fp)) ≠ "Infinity".toList := by
    intro heq
    have h1 := (List.cons.inj heq).1
    rw [h1] at hd
    exact absurd hd (by decide)
  have hu : parseUDec ((d :: ip') ++ fracChars fp) = some (decValue (d :: ip') fp 0) :=
    parseUDec_render (d :: ip') fp hipne hip hfp
  cases neg
  · simp only [signChars, Bool.false_eq_true, if_false, List.nil_append, List.cons_append]
    unfold parseSignedDec
    rw [splitSign_digit _ hd]
    simp only [List.cons_append] at hu
    simp [hne, hu]
    intro h1
    rw [h1] at hd
    exact absurd hd (by decide)
  · simp only [signChars, if_true, List.cons_append, List.nil_append]
    unfold parseSignedDec
    simp only [splitSign]
    simp only [List.cons_append] at hu
    simp [hne, hu]
    intro h1
    rw [h1] at hd
    exact absurd hd (by decide)

theorem parseNumericLit_render (neg : Bool) (ip fp : List Char) (hipne : ip ≠ [])
    (hip : ∀ c ∈ ip, jsIsDigit c = true) (hfp : ∀ c ∈ fp, jsIsDigit c = true) :
    parseNumericLit (signChars neg ++ ip ++ fracChars fp) =
      .val (if neg then -(decValue ip fp 0) else decValue ip fp 0) := by
  rw [parseNumericLit_eq_signed]
  · exact parseSignedDec_render neg ip fp hipne hip hfp
  · intro c hc
    rcases ip with _ | ⟨d, ip'⟩
    · exact absurd rfl hipne
    cases neg
    · -- cs = d :: (ip' ++ fracChars fp); the char at index 1 is a digit or '.'
      simp only [signChars, Bool.false_eq_true, if_false, List.nil_append,
        List.cons_append] at hc
      rcases ip' with _ | ⟨d2, ip''⟩
      · simp only [List.nil_append] at hc
        rcases hf : fp with _ | ⟨f0, fr⟩
        · rw [hf] at hc
          simp [fracChars] at hc
        · rw [hf] at hc
          simp [fracChars] at hc
          rw [← hc]
          decide
      · simp only [List.cons_append] at hc
        simp at hc
        rw [← hc]
        exact radixOf_of_digit (hip d2 (List.mem_cons_of_mem _ (List.mem_cons_self d2 ip'')))
    · -- cs = '-' :: d :: (ip' ++ fracChars fp); the char at index 1 is the digit d
      simp only [signChars, if_true, List.cons_append, List.nil_append] at hc
      simp at hc
      rw [← hc]
      exact radixOf_of_digit (hip d (List.mem_cons_self d ip'))

theorem jsToNumber_render (neg : Bool) (ip fp : List Char) (hipne : ip ≠ [])
    (hip : ∀ c ∈ ip, jsIsDigit c = true) (hfp : ∀ c ∈ fp, jsIsDigit c = true) :
    jsToNumber (renderDecimal neg ip fp) =
      .val (if neg then -(decValue ip fp 0) else decValue ip fp 0) := by
  have hmem : ∀ c ∈ (signChars neg ++ ip ++ fracChars fp), jsIsWs c = false := by
    intro c hc
    rcases List.mem_append.1 hc with h | h
    · rcases List.mem_append.1 h with h | h
      · cases neg
        · simp [signChars] at h
        · simp [signChars] at h
          rw [h]
          decide
      · exact jsIsWs_of_digit (hip c h)
    · rcases hf : fp with _ | ⟨f0, fr⟩
      · rw [hf] at h
        simp [fracChars] at h
      · rw [hf] at h
        simp [fracChars] at h
        rcases h with h | h | h
        · rw [h]
          decide
        · rw [h]
          exact jsIsWs_of_digit (hfp f0 (by rw [hf]; exact List.mem_cons_self f0 fr))
        · exact jsIsWs_of_digit (hfp c (by rw [hf]; exact List.mem_cons_of_mem f0 h))
  have hnonempty : (signChars neg ++ ip ++ fracChars fp).isEmpty = false := by
    rcases ip with _ | ⟨d, ip'⟩
    · exact absurd rfl hipne
    cases neg <;> simp [signChars]
  unfold jsToNumber renderDecimal
  rw [show (String.mk (signChars neg ++ ip ++ fracChars fp)).toList
    = signChars neg ++ ip ++ fracChars fp from rfl]
  rw [trim_of_no_ws hmem]
  simp only [hnonempty, Bool.false_eq_true, if_false]
  exact parseNumericLit_render neg ip fp hipne hip hfp

theorem decValue_zero (ip fp : List Char) :
    decValue ip fp 0 = (digitsToNat ip : ℚ) + (digitsToNat fp : ℚ) / pow10 fp.length := by
  unfold decValue pow10
  rw [if_pos (le_refl (0 : ℤ))]
  rw [Rat.mkRat_eq_div]
  have h10 : ((10 : ℕ) ^ fp.length : ℚ) ≠ 0 := by positivity
  push_cast
  field_simp

theorem decSignedValue_eq (neg : Bool) (ip fp : List Char) :
    (if neg then -(decValue ip fp 0) else decValue ip fp 0) = decSignedValue neg ip fp := by
  cases neg <;> simp [decSignedValue, decValue_zero]

/-- Claim C8, amended: `NumberTypeValidator.isValid` accepts every
string that renders a finite decimal numeral (optional sign, integer
digits, optional fractional digits), and on those strings `coerce`
returns the denoted value; but acceptance is strictly larger than the
finite decimals — `isValid` is `!isNaN(Number(input))`, which also
accepts `"Infinity"` (not finite) and `"0x10"` (not decimal). -/
theorem C8_number_validator_refinement :
    (∀ (neg : Bool) (ip fp : List Char), ip ≠ [] →
      (∀ c ∈ ip, jsIsDigit c = true) → (∀ c ∈ fp, jsIsDigit c = true) →
      ValueTypeValidator.isValid .numberV (renderDecimal neg ip fp) = true ∧
      ValueTypeValidator.coerce .numberV (renderDecimal neg ip fp) =
        .vNum (decSignedValue neg ip fp)) ∧
    ValueTypeValidator.isValid .numberV "Infinity" = true ∧
    ValueTypeValidator.isValid .numberV "0x10" = true := by
  refine ⟨?_, rfl, rfl⟩
  intro neg ip fp h1 h2 h3
  have hj := jsToNumber_render neg ip fp h1 h2 h3
  constructor
  · simp [ValueTypeValidator.isValid, hj]
  · simp only [ValueTypeValidator.coerce, hj, jsNumToValue]
    rw [decSignedValue_eq]

/-- Claim C8, witness instantiation at the numeral `12.5`. -/
theorem C8_number_validator_refinement_witness :
    ValueTypeValidator.isValid .numberV "12.5" = true ∧
    ValueTypeValidator.coerce .numberV "12.5" = .vNum (decSignedValue false ['1', '2'] ['5']) := by
  have h := C8_number_validator_refinement.1 false ['1', '2'] ['5'] (by decide) (by decide)
    (by decide)
  rw [show ("12.5" : String) = renderDecimal false ['1', '2'] ['5'] from by decide]
  exact h
